import Mathlib

/-!
Verification of the data-joining and status-derivation pipeline of the
Peer-Group Anomaly Detection dashboard (`app.py`).

The embedding follows the source closely:
* `load_data` reads the universe and watchlist CSV files, left-merges the
  watchlist onto the universe projection on `Symbol`, fills missing
  `Company Name` cells with `Symbol`, and derives `Status` from
  `Anomaly_Label` (`'Outlier' if x == -1 else 'Normal'`).  A
  `FileNotFoundError` from either read is caught and an empty table is
  returned; any other exception propagates.
* `load_historical_data` reads the historical CSV, derives `Year` from the
  `Financial Year End` column when present, and renames columns through a
  fixed map.  A missing file yields an empty table.
* The Executive Summary / Sector Analysis pages compute per-sector totals,
  outlier counts and `Risk %`.
* `get_risk_insight` picks the feature with the largest absolute z-score
  (pandas `idxmax`: first occurrence wins on ties) and selects a narrative
  by `(feature, direction)` where `direction = 'high' if max_val > 0 else
  'low'`.

File reads are modelled by passing the result of each read as an
`Except PyError` value: `PyError.fileNotFound` models `FileNotFoundError`,
the other constructors model the remaining exceptions Python file reads
and parses can raise.  Missing CSV cells (pandas `NaN`) are modelled by
`Option`/`Val.na`.  Real-valued columns are modelled by `ℚ`.
-/

namespace PeerAnomaly

/-! ### Errors raised by reading the input files -/

/-- Python exceptions a `pd.read_csv` call (and the subsequent column
projection) can raise.  Only `fileNotFound` (`FileNotFoundError`) is caught
by the source's `except` clauses; `permissionDenied` models a present but
unreadable file (`PermissionError`), `parserError` a malformed CSV, and
`keyError` a missing required column. -/
inductive PyError where
  | fileNotFound
  | permissionDenied
  | parserError
  | keyError
deriving DecidableEq

/-! ### The company dataset (`load_data`) -/

/-- One row of `ind_nifty500list.csv` after the projection
`universe[['Symbol', 'Company Name']]`.  `companyName = none` models a
`NaN` cell. -/
structure UniverseRow where
  symbol : String
  companyName : Option String
deriving DecidableEq

/-- One row of `final_project_watchlist_complete.csv`. -/
structure WatchRow where
  symbol : String
  sector : String
  anomalyScore : ℚ
  anomalyLabel : Int
  tata : ℚ
  dsri : ℚ
  aqi : ℚ
  pocf : ℚ
  peg : ℚ
  dupont : ℚ
  pca1 : ℚ
  pca2 : ℚ
deriving DecidableEq

/-- A row of `pd.merge(watchlist, universe, on='Symbol', how='left')`:
the watchlist row together with the matched `Company Name` value
(`none` models the `NaN` produced for unmatched rows or matched rows whose
name cell was itself `NaN`). -/
structure MergedRow where
  watch : WatchRow
  companyName : Option String
deriving DecidableEq

/-- `pd.merge(watchlist, universe, on='Symbol', how='left')`: every
watchlist row is kept in its original order; a row with no universe match
yields one output row with a `NaN` name; a row with matches yields one
output row per matching universe row, in universe order. -/
def mergeLeft (watchlist : List WatchRow) (univ : List UniverseRow) :
    List MergedRow :=
  watchlist.flatMap (fun w =>
    let ms := univ.filter (fun u => u.symbol = w.symbol)
    if ms.isEmpty then [{ watch := w, companyName := none }]
    else ms.map (fun u => { watch := w, companyName := u.companyName }))

/-- `'Outlier' if x == -1 else 'Normal'` (line 44 of `app.py`). -/
def statusOf (label : Int) : String :=
  if label = -1 then "Outlier" else "Normal"

/-- A row of the dataframe returned by `load_data`. -/
structure DataRow where
  watch : WatchRow
  companyName : String
  status : String
deriving DecidableEq

/-- `data['Company Name'] = data['Company Name'].fillna(data['Symbol'])`
and `data['Status'] = data['Anomaly_Label'].apply(...)`, applied to one
merged row. -/
def finalizeRow (m : MergedRow) : DataRow :=
  { watch := m.watch
    companyName := m.companyName.getD m.watch.symbol
    status := statusOf m.watch.anomalyLabel }

/-- The table built inside `load_data`'s `try` block from already-read
inputs. -/
def loadedRows (watchlist : List WatchRow) (univ : List UniverseRow) :
    List DataRow :=
  (mergeLeft watchlist univ).map finalizeRow

/-- `load_data` (lines 34-48): the two reads happen inside a `try` whose
`except FileNotFoundError` returns an empty dataframe; any other exception
escapes the function. -/
def load_data (u : Except PyError (List UniverseRow))
    (w : Except PyError (List WatchRow)) : Except PyError (List DataRow) :=
  match u with
  | .error e => if e = .fileNotFound then .ok [] else .error e
  | .ok univ =>
    match w with
    | .error e => if e = .fileNotFound then .ok [] else .error e
    | .ok wl => .ok (loadedRows wl univ)

/-- Number of merged rows a single watchlist row `w` produces: one when the
universe has no row with its symbol, otherwise one per matching row. -/
def matchCount (univ : List UniverseRow) (w : WatchRow) : Nat :=
  max 1 (univ.filter (fun u => u.symbol = w.symbol)).length

/-! ### The historical dataset (`load_historical_data`) -/

/-- A cell of the historical dataframe.  `date` models a value parsed by
`pd.to_datetime` (year, month, day); `na` models `NaN`/`NaT`. -/
inductive Val where
  | str (s : String)
  | num (q : ℚ)
  | date (y : Int) (m : Nat) (d : Nat)
  | na
deriving DecidableEq

/-- A historical dataframe: a column-name list and rows as association
lists from column name to cell (each row's key list equals `cols`). -/
structure HistTable where
  cols : List String
  rows : List (List (String × Val))
deriving DecidableEq

/-- The empty dataframe `pd.DataFrame()`. -/
def emptyHist : HistTable := { cols := [], rows := [] }

/-- Cell lookup by column label (first occurrence, like pandas with
duplicate labels); a missing label reads as `NaN`. -/
def lookupCell (row : List (String × Val)) (c : String) : Val :=
  (row.lookup c).getD .na

/-- `pd.to_datetime(cell).dt.year`: the calendar-year component of a date
cell (anything unparseable is `NaT`, whose year reads as `NaN`). -/
def yearOfVal (v : Val) : Val :=
  match v with
  | .date y _ _ => .num (y : ℚ)
  | _ => .na

/-- Per-row effect of `hist_df['Year'] = pd.to_datetime(hist_df['Financial
Year End']).dt.year`: the new `Year` column is appended. -/
def addYearRow (r : List (String × Val)) : List (String × Val) :=
  r ++ [("Year", yearOfVal (lookupCell r "Financial Year End"))]

/-- Lines 58-59 of `app.py`: the `Year` column is derived only when the
`Financial Year End` column is present. -/
def addYear (t : HistTable) : HistTable :=
  if "Financial Year End" ∈ t.cols then
    { cols := t.cols ++ ["Year"], rows := t.rows.map addYearRow }
  else t

/-- The fixed `column_map` of lines 63-67. -/
def column_map : List (String × String) :=
  [("Ticker", "Symbol"), ("Total Revenue", "Revenue"),
   ("Operating Cash Flow (CFO)", "OCF")]

/-- `df.rename(columns=column_map)` on one column label: labels in the
map's domain are replaced, all others pass through. -/
def renameCol (c : String) : String :=
  (column_map.lookup c).getD c

/-- `rename` applied to one `(label, cell)` entry: only the label changes. -/
def renamePair (p : String × Val) : String × Val :=
  (renameCol p.1, p.2)

/-- `hist_df = hist_df.rename(columns=column_map)` (line 68). -/
def renameTable (t : HistTable) : HistTable :=
  { cols := t.cols.map renameCol
    rows := t.rows.map (fun r => r.map renamePair) }

/-- `load_historical_data` (lines 50-72): derive `Year`, rename columns;
a `FileNotFoundError` yields `pd.DataFrame()`, other exceptions escape. -/
def load_historical_data (read : Except PyError HistTable) :
    Except PyError HistTable :=
  match read with
  | .error e => if e = .fileNotFound then .ok emptyHist else .error e
  | .ok t => .ok (renameTable (addYear t))

/-- `df.empty` for the historical dataframe. -/
def histIsEmpty (t : HistTable) : Bool :=
  t.rows.isEmpty

/-- Comparison used by `sort_values(by='Year')`: rows ordered by their
`Year` cell (numeric years; anything else sorts first). -/
def yearLE (a b : List (String × Val)) : Bool :=
  match lookupCell a "Year", lookupCell b "Year" with
  | .num x, .num y => decide (x ≤ y)
  | .num _, _ => false
  | _, _ => true

/-- Lines 312-314 of `app.py` (Company Deep Dive page):
`comp_hist = pd.DataFrame()`, reassigned to the symbol-filtered,
year-sorted slice only when `hist_df` is nonempty. -/
def compHist (hist : HistTable) (symbol : String) : HistTable :=
  if histIsEmpty hist then emptyHist
  else
    { cols := hist.cols
      rows := ((hist.rows.filter
          (fun r => lookupCell r "Symbol" = .str symbol)).mergeSort yearLE) }

/-! ### Sector aggregates (Executive Summary / Sector Analysis pages) -/

/-- `df['Sector'].unique()` over a table: the distinct sector values in
first-appearance order (also the group keys of `df.groupby('Sector')`). -/
def sectorsOf (rows : List DataRow) : List String :=
  (rows.map (fun r => r.watch.sector)).dedup

/-- The rows of one sector group (`df[df['Sector'] == s]`, also one
`groupby('Sector')` group). -/
def sectorGroup (rows : List DataRow) (s : String) : List DataRow :=
  rows.filter (fun r => r.watch.sector = s)

/-- `total = len(summary_df)` / `Total=('Symbol', 'count')`. -/
def totalOf (g : List DataRow) : Nat := g.length

/-- `outliers = len(summary_df[summary_df['Status'] == 'Outlier'])` /
`Outliers=('Status', lambda x: (x == 'Outlier').sum())`. -/
def outliersOf (g : List DataRow) : Nat :=
  (g.filter (fun r => r.status = "Outlier")).length

/-- Line 157: `pct = (outliers/total)*100 if total > 0 else 0`. -/
def riskPercent (g : List DataRow) : ℚ :=
  if 0 < totalOf g then ((outliersOf g : ℚ) / (totalOf g : ℚ)) * 100 else 0

/-- Line 204 (Sector Analysis): `(Outliers / Total) * 100`, computed with
no zero guard on the `groupby` output. -/
def riskPercentUnguarded (g : List DataRow) : ℚ :=
  ((outliersOf g : ℚ) / (totalOf g : ℚ)) * 100

/-! ### Risk insight (`get_risk_insight`, lines 85-133) -/

/-- `feature_cols` (line 85). -/
def feature_cols : List String :=
  ["TATA_Z", "DSRI_Z", "AQI_Z", "P_OCF_Z", "PEG_Z", "DuPont_Discrepancy_Z"]

/-- The six z-score fields of one row, as passed to `get_risk_insight`. -/
structure FeatureVec where
  tata : ℚ
  dsri : ℚ
  aqi : ℚ
  pocf : ℚ
  peg : ℚ
  dupont : ℚ
deriving DecidableEq

/-- `row[feature_cols]`: the labelled series of the six z-scores, in
`feature_cols` order. -/
def featValsList (v : FeatureVec) : List (String × ℚ) :=
  [("TATA_Z", v.tata), ("DSRI_Z", v.dsri), ("AQI_Z", v.aqi),
   ("P_OCF_Z", v.pocf), ("PEG_Z", v.peg), ("DuPont_Discrepancy_Z", v.dupont)]

/-- Fold underlying `vals.abs().idxmax()`: keep the current best entry and
replace it only on a strictly larger absolute value, so the first
occurrence of the maximum wins. -/
def idxmaxAbsAux (best : String × ℚ) : List (String × ℚ) → String × ℚ
  | [] => best
  | p :: rest => idxmaxAbsAux (if |p.2| > |best.2| then p else best) rest

/-- `vals.abs().idxmax()` together with `vals[max_col]`: the label and
value of the first entry of maximal absolute value.  (pandas raises on an
empty series; the `[]` branch is unreachable since `feature_cols` is
nonempty.) -/
def idxmaxAbs (l : List (String × ℚ)) : String × ℚ :=
  match l with
  | [] => ("", 0)
  | p :: rest => idxmaxAbsAux p rest

/-- `risk_map` (lines 93-118): feature → direction → narrative. -/
def risk_map : List (String × List (String × String)) :=
  [("TATA_Z",
    [("high", "High Accruals: Profits may not be backed by cash flow (Earnings Quality Risk)."),
     ("low", "Low Accruals: Cash flow is strong relative to reported profit.")]),
   ("DSRI_Z",
    [("high", "High Receivables Growth: Revenue might be driven by aggressive credit sales."),
     ("low", "Low Receivables: Efficient collection cycle.")]),
   ("AQI_Z",
    [("high", "High Asset Quality Index: Potential capitalization of expenses into non-current assets."),
     ("low", "Stable Asset Base.")]),
   ("P_OCF_Z",
    [("high", "High Price-to-CashFlow: Valuation appears disconnected from cash generation."),
     ("low", "Low Valuation relative to Cash Flow.")]),
   ("PEG_Z",
    [("high", "High PEG Ratio: Expensive valuation relative to growth rate."),
     ("low", "Undervalued relative to growth.")]),
   ("DuPont_Discrepancy_Z",
    [("high", "DuPont Discrepancy: Significant gap between ROE and Sustainable Growth Rate."),
     ("low", "Consistent Growth Dynamics.")])]

/-- `risk_map.get(max_col, {}).get(direction, "Analysis inconclusive.")`. -/
def risk_map_get (col direction : String) : String :=
  (((risk_map.lookup col).getD []).lookup direction).getD
    "Analysis inconclusive."

/-- The triple returned by `get_risk_insight`. -/
structure RiskInsight where
  maxCol : String
  maxVal : ℚ
  narrative : String
deriving DecidableEq

/-- `get_risk_insight` (lines 120-133). -/
def get_risk_insight (v : FeatureVec) : RiskInsight :=
  let best := idxmaxAbs (featValsList v)
  let direction := if best.2 > 0 then "high" else "low"
  { maxCol := best.1, maxVal := best.2
    narrative := risk_map_get best.1 direction }

/-- The six `'high'` narratives of `risk_map`. -/
def highNarratives : List String :=
  risk_map.filterMap (fun p => p.2.lookup "high")

/-- The six `'low'` narratives of `risk_map`. -/
def lowNarratives : List String :=
  risk_map.filterMap (fun p => p.2.lookup "low")

/-! ### Concrete rows used to instantiate the theorems

They realise the spec's worked examples: the matched `TCS` outlier row and
the unmatched `XYZCO` normal row. -/

/-- Watchlist row `{symbol: TCS, anomalyLabel: -1, anomalyScore: -0.41,
sector: IT}`. -/
def wTCS : WatchRow :=
  { symbol := "TCS", sector := "IT", anomalyScore := -41/100
    anomalyLabel := -1, tata := 0, dsri := 0, aqi := 0, pocf := 0
    peg := 0, dupont := 0, pca1 := 0, pca2 := 0 }

/-- Universe row `{symbol: TCS, companyName: Tata Consultancy Services}`. -/
def uTCS : UniverseRow :=
  { symbol := "TCS", companyName := some "Tata Consultancy Services" }

/-- Watchlist row `{symbol: XYZCO, anomalyLabel: 1}` with no universe
match. -/
def wXYZ : WatchRow :=
  { symbol := "XYZCO", sector := "IT", anomalyScore := 0
    anomalyLabel := 1, tata := 0, dsri := 0, aqi := 0, pocf := 0
    peg := 0, dupont := 0, pca1 := 0, pca2 := 0 }

/-- Universe table whose two rows share the symbol `TCS`. -/
def univDup : List UniverseRow :=
  [{ symbol := "TCS", companyName := some "Tata Consultancy Services" },
   { symbol := "TCS", companyName := some "TCS Duplicate Entry" }]

/-- The column list of the historical dataframe after the `Year`
derivation, before the rename. -/
def extCols (t : HistTable) : List String :=
  if "Financial Year End" ∈ t.cols then t.cols ++ ["Year"] else t.cols

/-- Per-row effect of the whole `load_historical_data` pre-processing:
append the derived `Year` cell when the table carries a `Financial Year
End` column, then rename the labels. -/
def histRowF (t : HistTable) (r : List (String × Val)) :
    List (String × Val) :=
  (if "Financial Year End" ∈ t.cols then addYearRow r else r).map renamePair

/-- A historical-file row in the external format, used to instantiate the
schema theorem. -/
def rHist : List (String × Val) :=
  [("Ticker", .str "TCS.NS"), ("Financial Year End", .date 2023 3 31),
   ("Total Revenue", .num 100), ("Operating Cash Flow (CFO)", .num 80),
   ("Net Income", .num 50)]

/-- A one-row historical table in the external file format, used to
instantiate the schema theorem. -/
def tHist : HistTable :=
  { cols := ["Ticker", "Financial Year End", "Total Revenue",
             "Operating Cash Flow (CFO)", "Net Income"]
    rows := [rHist] }

/-! ### Structure of the merged table -/

/-- Every row of the merged table carries either the `Company Name` of a
matching universe row, or a `NaN` name together with the absence of any
match. -/
theorem mem_mergeLeft_elim {wl : List WatchRow} {univ : List UniverseRow}
    {m : MergedRow} (hm : m ∈ mergeLeft wl univ) :
    (∃ u ∈ univ, u.symbol = m.watch.symbol ∧ m.companyName = u.companyName) ∨
      ((∀ u ∈ univ, u.symbol ≠ m.watch.symbol) ∧ m.companyName = none) := by
  rcases List.mem_flatMap.1 hm with ⟨w, _hw, hmem⟩
  by_cases hempty : (univ.filter (fun u => u.symbol = w.symbol)).isEmpty
  · rw [if_pos hempty] at hmem
    rcases List.mem_singleton.1 hmem with rfl
    refine Or.inr ⟨?_, rfl⟩
    intro u hu
    have := List.filter_eq_nil_iff.1 (List.isEmpty_iff.1 hempty) u hu
    simpa using this
  · rw [if_neg hempty] at hmem
    rcases List.mem_map.1 hmem with ⟨u, hu, rfl⟩
    rcases List.mem_filter.1 hu with ⟨humem, hsym⟩
    exact Or.inl ⟨u, humem, by simpa using hsym, rfl⟩

/-- C1: For every row of the table returned by `load_data`, the derived
`Status` equals `'Outlier'` iff that row's `Anomaly_Label` equals `-1`,
and equals `'Normal'` otherwise; being a per-row property, it is stable
under any later filtering. -/
theorem status_iff_anomaly_label (wl : List WatchRow)
    (univ : List UniverseRow) (r : DataRow) (hr : r ∈ loadedRows wl univ) :
    (r.status = "Outlier" ↔ r.watch.anomalyLabel = -1) ∧
    (r.status = "Normal" ↔ r.watch.anomalyLabel ≠ -1) := by
  rcases List.mem_map.1 hr with ⟨m, _hm, rfl⟩
  unfold finalizeRow statusOf
  by_cases h : m.watch.anomalyLabel = -1 <;> simp [h]

/-- Witness for `status_iff_anomaly_label`: the spec's `TCS` example row. -/
theorem status_iff_anomaly_label_witness :
    ((⟨wTCS, "Tata Consultancy Services", "Outlier"⟩ : DataRow).status =
        "Outlier" ↔ wTCS.anomalyLabel = -1) ∧
    ((⟨wTCS, "Tata Consultancy Services", "Outlier"⟩ : DataRow).status =
        "Normal" ↔ wTCS.anomalyLabel ≠ -1) :=
  status_iff_anomaly_label [wTCS] [uTCS]
    ⟨wTCS, "Tata Consultancy Services", "Outlier"⟩ (List.mem_singleton.2 rfl)

/-- C5: a missing historical file makes `load_historical_data` return the
empty dataframe, and the Company Deep Dive per-company slice of that empty
dataframe is again empty (rendering the "no data" message, not raising). -/
theorem load_historical_missing_file :
    load_historical_data (.error .fileNotFound) = .ok emptyHist ∧
    ∀ s : String, compHist emptyHist s = emptyHist ∧
      histIsEmpty (compHist emptyHist s) = true :=
  ⟨rfl, fun _ => ⟨rfl, rfl⟩⟩

/-- The length of the merged table is the sum of the per-watchlist-row
match counts. -/
theorem loadedRows_length_eq (wl : List WatchRow) (univ : List UniverseRow) :
    (loadedRows wl univ).length = (wl.map (matchCount univ)).sum := by
  induction wl with
  | nil => rfl
  | cons w rest ih =>
    unfold loadedRows mergeLeft at *
    rw [List.flatMap_cons, List.map_append, List.length_append, ih]
    simp only [List.map_cons, List.sum_cons]
    congr 1
    by_cases hempty : (univ.filter (fun u => u.symbol = w.symbol)).isEmpty
    · rw [if_pos hempty]
      simp [matchCount, List.isEmpty_iff.1 hempty]
    · rw [if_neg hempty]
      have hne : (univ.filter (fun u => u.symbol = w.symbol)).length ≠ 0 := by
        simpa [List.isEmpty_iff, List.length_eq_zero] using hempty

      simp [matchCount, Nat.max_eq_right (Nat.one_le_iff_ne_zero.2 hne)]

/-- Counterexample to C2 as stated: with a one-row watchlist and a
universe file containing the symbol twice, `load_data` returns two rows,
not one. -/
theorem loadedRows_length_counterexample :
    (loadedRows [wTCS] univDup).length = 2 ∧
    ([wTCS] : List WatchRow).length = 1 ∧
    load_data (.ok univDup) (.ok [wTCS]) = .ok (loadedRows [wTCS] univDup) :=
  ⟨rfl, rfl, rfl⟩

/-- C2 (amended): the left join never returns fewer rows than the
watchlist — missing universe symbols drop nothing — and returns exactly
the watchlist row count whenever no watchlist symbol matches more than one
universe row; a duplicated matching symbol adds rows. -/
theorem loadedRows_length (wl : List WatchRow) (univ : List UniverseRow) :
    wl.length ≤ (loadedRows wl univ).length ∧
    ((∀ w ∈ wl, (univ.filter (fun u => u.symbol = w.symbol)).length ≤ 1) →
      (loadedRows wl univ).length = wl.length) := by
  rw [loadedRows_length_eq]
  constructor
  · calc wl.length = (wl.map (matchCount univ)).length := by
          rw [List.length_map]
      _ ≤ (wl.map (matchCount univ)).sum := by
          apply List.length_le_sum_of_one_le
          intro i hi
          rcases List.mem_map.1 hi with ⟨w, _, rfl⟩
          exact le_max_left 1 _
  · intro h
    have : wl.map (matchCount univ) = wl.map (fun _ => 1) := by
      apply List.map_congr_left
      intro w hw
      have h1 := h w hw
      unfold matchCount
      omega
    rw [this]
    simp [List.map_const]

/-- Witness for `loadedRows_length`: with the single-match `TCS`
universe, the joined table has exactly one row. -/
theorem loadedRows_length_witness :
    ([wTCS] : List WatchRow).length ≤ (loadedRows [wTCS] [uTCS]).length ∧
    (loadedRows [wTCS] [uTCS]).length = ([wTCS] : List WatchRow).length :=
  ⟨(loadedRows_length [wTCS] [uTCS]).1,
   (loadedRows_length [wTCS] [uTCS]).2 (by decide)⟩

/-- C8: the join introduces no re-sorting — projecting the joined table
back to its watchlist part replays the watchlist rows in their original
order, each repeated once per universe match (exactly once when at most
one match exists). -/
theorem loadedRows_order (wl : List WatchRow) (univ : List UniverseRow) :
    (loadedRows wl univ).map (fun r => r.watch) =
      wl.flatMap (fun w => List.replicate (matchCount univ w) w) := by
  induction wl with
  | nil => rfl
  | cons w rest ih =>
    unfold loadedRows mergeLeft at *
    rw [List.flatMap_cons, List.flatMap_cons, List.map_append,
      List.map_append, ih]
    congr 1
    by_cases hempty : (univ.filter (fun u => u.symbol = w.symbol)).isEmpty
    · rw [if_pos hempty]
      simp [matchCount, finalizeRow, List.isEmpty_iff.1 hempty]
    · rw [if_neg hempty]
      have hne : (univ.filter (fun u => u.symbol = w.symbol)).length ≠ 0 := by
        simpa [List.isEmpty_iff, List.length_eq_zero] using hempty
      rw [List.map_map, List.map_map]
      have : matchCount univ w =
          (univ.filter (fun u => u.symbol = w.symbol)).length := by
        unfold matchCount; omega
      rw [this, ← List.map_const (univ.filter (fun u => u.symbol = w.symbol)) w]
      rfl

/-- Counterexample to C4 as stated: a present-but-unreadable universe file
(`PermissionError`) is not caught by `except FileNotFoundError`, so
`load_data` propagates the exception instead of returning the
empty/default table. -/
theorem load_data_unreadable_counterexample :
    load_data (.error .permissionDenied) (.ok [wTCS]) =
      .error .permissionDenied ∧
    load_data (.error .permissionDenied) (.ok [wTCS]) ≠ .ok [] :=
  ⟨rfl, fun h => Except.noConfusion h⟩

/-- C4 (amended): a missing file (`FileNotFoundError`) from either read
makes `load_data` return the empty table — the recoverable
`DataUnavailable` state — while any other read failure propagates as an
exception; missing-file is the only failure the operation recovers from,
not its only failure path. -/
theorem load_data_error_handling (univ : List UniverseRow)
    (w : Except PyError (List WatchRow)) (e : PyError) :
    load_data (.error .fileNotFound) w = .ok [] ∧
    load_data (.ok univ) (.error .fileNotFound) = .ok [] ∧
    (e ≠ .fileNotFound → load_data (.error e) w = .error e) ∧
    (e ≠ .fileNotFound → load_data (.ok univ) (.error e) = .error e) := by
  refine ⟨rfl, rfl, fun h => ?_, fun h => ?_⟩ <;>
    simp [load_data, h]

/-- Witness for `load_data_error_handling`: a parser error from the
watchlist read escapes `load_data`. -/
theorem load_data_error_handling_witness :
    load_data (.ok [uTCS]) (.error .parserError) =
      .error PyError.parserError :=
  (load_data_error_handling [uTCS] (.ok []) .parserError).2.2.2 (by decide)

/-- C3: every row of the joined table carries either the `Company Name` of
a universe row matching its symbol or, failing any usable match, its own
symbol; a row whose symbol has no universe entry always shows its symbol,
and the name is non-empty whenever the input names and symbols are. -/
theorem companyName_fallback (wl : List WatchRow) (univ : List UniverseRow)
    (r : DataRow) (hr : r ∈ loadedRows wl univ) :
    ((∃ u ∈ univ, u.symbol = r.watch.symbol ∧
        u.companyName = some r.companyName) ∨
      r.companyName = r.watch.symbol) ∧
    ((∀ u ∈ univ, u.symbol ≠ r.watch.symbol) →
      r.companyName = r.watch.symbol) ∧
    (r.watch.symbol ≠ "" →
      (∀ u ∈ univ, ∀ s, u.companyName = some s → s ≠ "") →
      r.companyName ≠ "") := by
  rcases List.mem_map.1 hr with ⟨m, hm, rfl⟩
  rcases mem_mergeLeft_elim hm with ⟨u, hu, hsym, hname⟩ | ⟨hnone, hname⟩
  · refine ⟨?_, ?_, ?_⟩
    · cases hcn : u.companyName with
      | none =>
        right
        simp [finalizeRow, hname, hcn]
      | some s =>
        left
        exact ⟨u, hu, hsym, by simp [finalizeRow, hname, hcn]⟩
    · intro hno
      exact absurd hsym (hno u hu)
    · intro hsymne hnames
      cases hcn : u.companyName with
      | none => simpa [finalizeRow, hname, hcn] using hsymne
      | some s => simpa [finalizeRow, hname, hcn] using hnames u hu s hcn
  · refine ⟨Or.inr ?_, fun _ => ?_, fun hsymne _ => ?_⟩
    · simp [finalizeRow, hname]
    · simp [finalizeRow, hname]
    · simpa [finalizeRow, hname] using hsymne

/-- Witness for `companyName_fallback`: the spec's unmatched `XYZCO` row
displays its own symbol. -/
theorem companyName_fallback_witness :
    (⟨wXYZ, "XYZCO", "Normal"⟩ : DataRow).companyName =
      (⟨wXYZ, "XYZCO", "Normal"⟩ : DataRow).watch.symbol :=
  (companyName_fallback [wXYZ] [uTCS] ⟨wXYZ, "XYZCO", "Normal"⟩
    (List.mem_singleton.2 rfl)).2.1 (by decide)

/-- C6: per-sector risk is `100 * outliers / total`, is `0` for an empty
group rather than a division fault, and every group actually produced by
`groupby('Sector')` is nonempty, so the Sector Analysis page's unguarded
division also never meets a zero denominator. -/
theorem sector_risk_percent (rows : List DataRow) (s : String) :
    (0 < totalOf (sectorGroup rows s) →
      riskPercent (sectorGroup rows s) =
        100 * (outliersOf (sectorGroup rows s) : ℚ) /
          (totalOf (sectorGroup rows s) : ℚ) ∧
      riskPercentUnguarded (sectorGroup rows s) =
        riskPercent (sectorGroup rows s)) ∧
    (totalOf (sectorGroup rows s) = 0 →
      riskPercent (sectorGroup rows s) = 0) ∧
    (s ∈ sectorsOf rows → 0 < totalOf (sectorGroup rows s)) := by
  refine ⟨fun hpos => ⟨?_, ?_⟩, fun hzero => ?_, fun hs => ?_⟩
  · rw [riskPercent, if_pos hpos]
    ring
  · rw [riskPercentUnguarded, riskPercent, if_pos hpos]
  · rw [riskPercent, if_neg (by omega)]
  · rcases List.mem_map.1 (List.mem_dedup.1 hs) with ⟨r, hr, hsec⟩
    have hmem : r ∈ sectorGroup rows s := List.mem_filter.2 ⟨hr, by simp [hsec]⟩
    refine List.length_pos.2 fun hnil => ?_
    rw [hnil] at hmem
    exact absurd hmem (List.not_mem_nil r)

/-- Witness for `sector_risk_percent`: a one-outlier `IT` group has risk
`100`, and a sector absent from the table (the spec's `Textiles` example)
has risk `0`. -/
theorem sector_risk_percent_witness :
    riskPercent (sectorGroup (loadedRows [wTCS] [uTCS]) "IT") =
      100 * (outliersOf (sectorGroup (loadedRows [wTCS] [uTCS]) "IT") : ℚ) /
        (totalOf (sectorGroup (loadedRows [wTCS] [uTCS]) "IT") : ℚ) ∧
    riskPercent (sectorGroup (loadedRows [wTCS] [uTCS]) "Textiles") = 0 ∧
    0 < totalOf (sectorGroup (loadedRows [wTCS] [uTCS]) "IT") :=
  ⟨((sector_risk_percent (loadedRows [wTCS] [uTCS]) "IT").1
      (by norm_num [loadedRows, mergeLeft, finalizeRow, totalOf,
        sectorGroup, wTCS, uTCS])).1,
   (sector_risk_percent (loadedRows [wTCS] [uTCS]) "Textiles").2.1
      (by norm_num [loadedRows, mergeLeft, finalizeRow, totalOf,
        sectorGroup, wTCS, uTCS]; decide),
   (sector_risk_percent (loadedRows [wTCS] [uTCS]) "IT").2.2
      (by norm_num [loadedRows, mergeLeft, finalizeRow, statusOf,
        sectorsOf, wTCS, uTCS])⟩

/-- Behaviour of the `idxmax` fold: either the initial entry survives and
dominates the whole list, or the result is some list entry that strictly
beats the initial entry and everything before it, and dominates everything
after it (the first occurrence of the maximal absolute value wins). -/
theorem idxmaxAbsAux_spec (l : List (String × ℚ)) (best : String × ℚ) :
    (idxmaxAbsAux best l = best ∧ ∀ p ∈ l, |p.2| ≤ |best.2|) ∨
    (∃ l₁ p l₂, l = l₁ ++ p :: l₂ ∧ idxmaxAbsAux best l = p ∧
      |best.2| < |p.2| ∧ (∀ q ∈ l₁, |q.2| < |p.2|) ∧
      (∀ q ∈ l₂, |q.2| ≤ |p.2|)) := by
  induction l generalizing best with
  | nil => exact Or.inl ⟨rfl, by simp⟩
  | cons q rest ih =>
    by_cases hq : |q.2| > |best.2|
    · have hstep : idxmaxAbsAux best (q :: rest) = idxmaxAbsAux q rest := by
        simp [idxmaxAbsAux, hq]
      rcases ih q with ⟨heq, hdom⟩ | ⟨l₁, p, l₂, hsplit, heq, hlt, hpre, hpost⟩
      · exact Or.inr ⟨[], q, rest, rfl, by rw [hstep, heq], hq, by simp, hdom⟩
      · refine Or.inr ⟨q :: l₁, p, l₂, by rw [hsplit]; rfl,
          by rw [hstep, heq], lt_trans hq hlt, ?_, hpost⟩
        intro x hx
        rcases List.mem_cons.1 hx with rfl | hx
        · exact hlt
        · exact hpre x hx
    · have hle : |q.2| ≤ |best.2| := not_lt.1 hq
      have hstep : idxmaxAbsAux best (q :: rest) = idxmaxAbsAux best rest := by
        simp [idxmaxAbsAux, hq]
      rcases ih best with ⟨heq, hdom⟩ | ⟨l₁, p, l₂, hsplit, heq, hlt, hpre, hpost⟩
      · refine Or.inl ⟨by rw [hstep, heq], ?_⟩
        intro x hx
        rcases List.mem_cons.1 hx with rfl | hx
        · exact hle
        · exact hdom x hx
      · refine Or.inr ⟨q :: l₁, p, l₂, by rw [hsplit]; rfl,
          by rw [hstep, heq], hlt, ?_, hpost⟩
        intro x hx
        rcases List.mem_cons.1 hx with rfl | hx
        · exact lt_of_le_of_lt hle hlt
        · exact hpre x hx

/-- Any nonempty labelled series splits at its `idxmax` entry into a
strictly-dominated prefix and a weakly-dominated suffix. -/
theorem idxmaxAbs_decomp (p0 : String × ℚ) (rest : List (String × ℚ)) :
    ∃ l₁ l₂, p0 :: rest = l₁ ++ idxmaxAbs (p0 :: rest) :: l₂ ∧
      (∀ q ∈ l₁, |q.2| < |(idxmaxAbs (p0 :: rest)).2|) ∧
      (∀ q ∈ l₂, |q.2| ≤ |(idxmaxAbs (p0 :: rest)).2|) := by
  have hstep : idxmaxAbs (p0 :: rest) = idxmaxAbsAux p0 rest := rfl
  rcases idxmaxAbsAux_spec rest p0 with
    ⟨heq, hdom⟩ | ⟨l₁, p, l₂, hsplit, heq, hlt, hpre, hpost⟩
  · exact ⟨[], rest, by rw [hstep, heq]; rfl, by simp,
      by rw [hstep, heq]; exact hdom⟩
  · refine ⟨p0 :: l₁, l₂, ?_, ?_, ?_⟩
    · rw [hstep, heq, hsplit]
      rfl
    · rw [hstep, heq]
      intro x hx
      rcases List.mem_cons.1 hx with rfl | hx
      · exact hlt
      · exact hpre x hx
    · rw [hstep, heq]
      exact hpost

set_option maxRecDepth 8000 in
/-- The entry selected by `get_risk_insight` splits the feature series
into a strictly-dominated prefix and a weakly-dominated suffix. -/
theorem insight_decomp (v : FeatureVec) :
    ∃ l₁ l₂,
      featValsList v =
        l₁ ++ ((get_risk_insight v).maxCol, (get_risk_insight v).maxVal)
          :: l₂ ∧
      (∀ p ∈ l₁, |p.2| < |(get_risk_insight v).maxVal|) ∧
      (∀ p ∈ l₂, |p.2| ≤ |(get_risk_insight v).maxVal|) :=
  idxmaxAbs_decomp ("TATA_Z", v.tata)
    [("DSRI_Z", v.dsri), ("AQI_Z", v.aqi), ("P_OCF_Z", v.pocf),
     ("PEG_Z", v.peg), ("DuPont_Discrepancy_Z", v.dupont)]

/-- C7: `get_risk_insight` is a pure function of the six z-scores (repeated
calls trivially agree), its feature series is exactly `feature_cols` in
declared order, and the selected driver is the first entry of maximal
absolute value: the series splits at `(maxCol, maxVal)` with everything
before strictly smaller in absolute value and everything after no
larger. -/
theorem get_risk_insight_driver (v : FeatureVec) :
    (featValsList v).map Prod.fst = feature_cols ∧
    ∃ l₁ l₂,
      featValsList v =
        l₁ ++ ((get_risk_insight v).maxCol, (get_risk_insight v).maxVal)
          :: l₂ ∧
      (∀ p ∈ l₁, |p.2| < |(get_risk_insight v).maxVal|) ∧
      (∀ p ∈ l₂, |p.2| ≤ |(get_risk_insight v).maxVal|) :=
  ⟨rfl, insight_decomp v⟩

set_option maxRecDepth 8000 in
/-- C10: the narrative is drawn from the `'high'` lookup table exactly when
the selected maximal-absolute z-score is strictly positive, and from the
`'low'` table otherwise; in particular the all-zero feature vector selects
`TATA_Z` with the `'low'` narrative, never the `"Analysis inconclusive."`
fallback. -/
theorem narrative_direction (v : FeatureVec) :
    ((get_risk_insight v).narrative ∈ highNarratives ↔
      0 < (get_risk_insight v).maxVal) ∧
    ((get_risk_insight v).narrative ∈ lowNarratives ↔
      ¬ 0 < (get_risk_insight v).maxVal) ∧
    get_risk_insight ⟨0, 0, 0, 0, 0, 0⟩ =
      ⟨"TATA_Z", 0,
        "Low Accruals: Cash flow is strong relative to reported profit."⟩ ∧
    (get_risk_insight ⟨0, 0, 0, 0, 0, 0⟩).narrative ≠
      "Analysis inconclusive." := by
  have hmem : ((get_risk_insight v).maxCol, (get_risk_insight v).maxVal) ∈
      featValsList v := by
    obtain ⟨l₁, l₂, hsplit, -, -⟩ := insight_decomp v
    rw [hsplit]
    exact List.mem_append_right _ (List.mem_cons_self _ _)
  have hcols : (featValsList v).map Prod.fst = feature_cols := rfl
  have hcol : (get_risk_insight v).maxCol ∈ feature_cols := by
    rw [← hcols]
    exact List.mem_map_of_mem Prod.fst hmem
  have hnarr : (get_risk_insight v).narrative =
      risk_map_get (get_risk_insight v).maxCol
        (if (get_risk_insight v).maxVal > 0 then "high" else "low") := rfl
  simp only [feature_cols, List.mem_cons, List.not_mem_nil, or_false]
    at hcol
  have hhigh : (get_risk_insight v).narrative ∈ highNarratives ↔
      0 < (get_risk_insight v).maxVal := by
    by_cases hpos : 0 < (get_risk_insight v).maxVal
    · rw [hnarr, if_pos hpos]
      simp only [hpos, iff_true]
      rcases hcol with hc | hc | hc | hc | hc | hc <;> rw [hc] <;> decide
    · rw [hnarr, if_neg hpos]
      simp only [hpos, iff_false]
      rcases hcol with hc | hc | hc | hc | hc | hc <;> rw [hc] <;> decide
  have hlow : (get_risk_insight v).narrative ∈ lowNarratives ↔
      ¬ 0 < (get_risk_insight v).maxVal := by
    by_cases hpos : 0 < (get_risk_insight v).maxVal
    · rw [hnarr, if_pos hpos]
      simp only [hpos, not_true, iff_false]
      rcases hcol with hc | hc | hc | hc | hc | hc <;> rw [hc] <;> decide
    · rw [hnarr, if_neg hpos]
      simp only [hpos, not_false_iff, iff_true]
      rcases hcol with hc | hc | hc | hc | hc | hc <;> rw [hc] <;> decide
  exact ⟨hhigh, hlow, rfl, by decide⟩

/-- Looking up a key distinct from the head key skips the head entry. -/
theorem lookup_cons_of_ne {β : Type _} {a k : String} {v : β}
    {tl : List (String × β)} (h : a ≠ k) :
    List.lookup a ((k, v) :: tl) = List.lookup a tl := by
  rw [List.lookup_cons, show (a == k) = false from beq_eq_false_iff_ne.2 h]

/-- Looking up a key absent from an association list yields `none`. -/
theorem lookup_eq_none_of_not_mem {β : Type _} {a : String}
    {l : List (String × β)} (h : a ∉ l.map Prod.fst) :
    List.lookup a l = none := by
  induction l with
  | nil => rfl
  | cons p tl ih =>
    obtain ⟨k, v⟩ := p
    simp only [List.map_cons, List.mem_cons, not_or] at h
    rw [lookup_cons_of_ne h.1]
    exact ih h.2

/-- When the rename is injective on a row's keys, looking up a renamed
label in the renamed row is looking up the original label in the original
row. -/
theorem lookup_map_renamePair (l : List (String × Val)) (k : String)
    (hinj : ∀ k' ∈ l.map Prod.fst, renameCol k' = renameCol k → k' = k) :
    (l.map renamePair).lookup (renameCol k) = l.lookup k := by
  induction l with
  | nil => rfl
  | cons p tl ih =>
    obtain ⟨a, val⟩ := p
    by_cases hak : a = k
    · subst hak
      simp [renamePair, List.lookup_cons]
    · have hne : renameCol k ≠ renameCol a := fun h =>
        hak (hinj a (by simp) h.symm)
      rw [List.map_cons]
      show List.lookup (renameCol k) ((renameCol a, val) :: tl.map renamePair)
        = List.lookup k ((a, val) :: tl)
      rw [lookup_cons_of_ne hne, lookup_cons_of_ne (fun h => hak h.symm)]
      exact ih (fun k' hk' h => hinj k' (by simp [hk']) h)

/-- The key list of the `Year`-extended row. -/
theorem keys_extRow (t : HistTable) (r : List (String × Val))
    (hkeys : r.map Prod.fst = t.cols) :
    (if "Financial Year End" ∈ t.cols then addYearRow r else r).map Prod.fst
      = extCols t := by
  by_cases hfy : "Financial Year End" ∈ t.cols <;>
    simp [addYearRow, extCols, hfy, hkeys]

/-- Reading a renamed label from the fully pre-processed row is reading
the original label from the `Year`-extended row. -/
theorem lookupCell_histRowF (t : HistTable) (r : List (String × Val))
    (hkeys : r.map Prod.fst = t.cols)
    (hnodup : ((extCols t).map renameCol).Nodup)
    (k : String) (hk : k ∈ extCols t) :
    lookupCell (histRowF t r) (renameCol k) =
      lookupCell (if "Financial Year End" ∈ t.cols then addYearRow r else r)
        k := by
  unfold lookupCell histRowF
  congr 1
  apply lookup_map_renamePair
  intro k' hk' h
  rw [keys_extRow t r hkeys] at hk'
  exact List.inj_on_of_nodup_map hnodup hk' hk h

/-- Appending the derived `Year` cell leaves every other label's value
unchanged. -/
theorem lookupCell_addYearRow_ne (r : List (String × Val)) (k : String)
    (hk : k ≠ "Year") : lookupCell (addYearRow r) k = lookupCell r k := by
  unfold lookupCell addYearRow
  rw [List.lookup_append, lookup_cons_of_ne hk]
  simp

/-- In a row whose keys avoid `Year`, the appended `Year` cell reads back
as the calendar-year component of `Financial Year End`. -/
theorem lookupCell_addYearRow_year (r : List (String × Val))
    (hnot : "Year" ∉ r.map Prod.fst) :
    lookupCell (addYearRow r) "Year" =
      yearOfVal (lookupCell r "Financial Year End") := by
  unfold lookupCell addYearRow
  rw [List.lookup_append, lookup_eq_none_of_not_mem hnot]
  simp [List.lookup_cons, lookupCell]

/-- C9: `load_historical_data` applies exactly the fixed rename map
(`Ticker → Symbol`, `Total Revenue → Revenue`, `Operating Cash Flow (CFO)
→ OCF`, every other label untouched), derives `Year` as the calendar-year
component of `Financial Year End` when that column is present, and passes
every other field's value through unchanged, assuming the renamed column
labels stay distinct. -/
theorem load_historical_schema (t : HistTable)
    (hnodup : ((extCols t).map renameCol).Nodup) :
    load_historical_data (.ok t) = .ok (renameTable (addYear t)) ∧
    (renameTable (addYear t)).cols = (extCols t).map renameCol ∧
    (renameTable (addYear t)).rows = t.rows.map (histRowF t) ∧
    renameCol "Ticker" = "Symbol" ∧
    renameCol "Total Revenue" = "Revenue" ∧
    renameCol "Operating Cash Flow (CFO)" = "OCF" ∧
    (∀ c, c ∉ ["Ticker", "Total Revenue", "Operating Cash Flow (CFO)"] →
      renameCol c = c) ∧
    ∀ r ∈ t.rows, r.map Prod.fst = t.cols →
      ("Ticker" ∈ t.cols →
        lookupCell (histRowF t r) "Symbol" = lookupCell r "Ticker") ∧
      ("Total Revenue" ∈ t.cols →
        lookupCell (histRowF t r) "Revenue" =
          lookupCell r "Total Revenue") ∧
      ("Operating Cash Flow (CFO)" ∈ t.cols →
        lookupCell (histRowF t r) "OCF" =
          lookupCell r "Operating Cash Flow (CFO)") ∧
      ("Financial Year End" ∈ t.cols →
        lookupCell (histRowF t r) "Year" =
          yearOfVal (lookupCell r "Financial Year End")) ∧
      (∀ c ∈ t.cols,
        c ∉ ["Ticker", "Total Revenue", "Operating Cash Flow (CFO)"] →
        lookupCell (histRowF t r) c = lookupCell r c) := by
  have hother : ∀ c,
      c ∉ ["Ticker", "Total Revenue", "Operating Cash Flow (CFO)"] →
      renameCol c = c := by
    intro c hc
    simp only [List.mem_cons, List.not_mem_nil, not_or, or_false] at hc
    unfold renameCol column_map
    rw [lookup_cons_of_ne hc.1, lookup_cons_of_ne hc.2.1,
      lookup_cons_of_ne hc.2.2]
    rfl
  have hyear_not : "Financial Year End" ∈ t.cols → "Year" ∉ t.cols := by
    intro hfy hyear
    have hext : extCols t = t.cols ++ ["Year"] := if_pos hfy
    rw [hext, List.map_append] at hnodup
    have hdisj := (List.nodup_append.1 hnodup).2.2
    exact hdisj (a := "Year")
      (by
        have := List.mem_map_of_mem renameCol hyear
        rwa [hother "Year" (by decide)] at this)
      (by simp [hother "Year" (by decide)])
  refine ⟨rfl, ?_, ?_, rfl, rfl, rfl, hother, ?_⟩
  · by_cases hfy : "Financial Year End" ∈ t.cols <;>
      simp [renameTable, addYear, extCols, hfy]
  · by_cases hfy : "Financial Year End" ∈ t.cols <;>
      simp [renameTable, addYear, histRowF, hfy, List.map_map]
  · intro r hr hkeys
    have key : ∀ k ∈ extCols t,
        lookupCell (histRowF t r) (renameCol k) =
          lookupCell
            (if "Financial Year End" ∈ t.cols then addYearRow r else r)
            k :=
      fun k hk => lookupCell_histRowF t r hkeys hnodup k hk
    have hsub : t.cols ⊆ extCols t := by
      unfold extCols
      by_cases hfy : "Financial Year End" ∈ t.cols <;>
        simp [hfy, List.subset_append_left]
    have hstep : ∀ k, k ∈ t.cols →
        ("Financial Year End" ∈ t.cols → k ≠ "Year") →
        lookupCell (histRowF t r) (renameCol k) = lookupCell r k := by
      intro k hkc hky
      rw [key k (hsub hkc)]
      by_cases hfy : "Financial Year End" ∈ t.cols
      · rw [if_pos hfy]
        exact lookupCell_addYearRow_ne r k (hky hfy)
      · rw [if_neg hfy]
    refine ⟨?_, ?_, ?_, ?_, ?_⟩
    · intro hTk
      have h := hstep "Ticker" hTk (fun _ => by decide)
      rwa [show renameCol "Ticker" = "Symbol" from rfl] at h
    · intro hTR
      have h := hstep "Total Revenue" hTR (fun _ => by decide)
      rwa [show renameCol "Total Revenue" = "Revenue" from rfl] at h
    · intro hOCF
      have h := hstep "Operating Cash Flow (CFO)" hOCF (fun _ => by decide)
      rwa [show renameCol "Operating Cash Flow (CFO)" = "OCF" from rfl] at h
    · intro hfy
      have hYmem : "Year" ∈ extCols t := by
        unfold extCols
        rw [if_pos hfy]
        exact List.mem_append_right _ (List.mem_singleton.2 rfl)
      have h := key "Year" hYmem
      rw [hother "Year" (by decide), if_pos hfy] at h
      rw [h]
      exact lookupCell_addYearRow_year r (by rw [hkeys]; exact hyear_not hfy)
    · intro c hcmem hcnot
      have h := hstep c hcmem (fun hfy hcy => (hyear_not hfy) (hcy ▸ hcmem))
      rwa [hother c hcnot] at h

/-- Witness for `load_historical_schema`: on the concrete one-row table,
the renamed `Symbol` column carries the original `Ticker` value, `Year` is
derived from the fiscal-year-end date, and `Net Income` passes through. -/
theorem load_historical_schema_witness :
    lookupCell (histRowF tHist rHist) "Symbol" = lookupCell rHist "Ticker" ∧
    lookupCell (histRowF tHist rHist) "Year" =
      yearOfVal (lookupCell rHist "Financial Year End") ∧
    lookupCell (histRowF tHist rHist) "Net Income" =
      lookupCell rHist "Net Income" := by
  have h := (load_historical_schema tHist (by decide)).2.2.2.2.2.2.2 rHist
    (List.mem_singleton.2 rfl) rfl
  exact ⟨h.1 (by decide), h.2.2.2.1 (by decide),
    h.2.2.2.2 "Net Income" (by decide) (by decide)⟩

end PeerAnomaly
